import Mathlib

/-!
Shallow embedding of the Cerina Protocol Foundry backend pipeline core
(`backend/app/orchestrator_langgraph_true.py`, `backend/app/checkpointer.py`,
`backend/app/models/db_models.py`, `backend/app/main.py`), together with
theorems settling the specification claims about it.

Modelling conventions:
- The Python run-state dictionary becomes the structure `RState`; keys the
  code may leave absent before a stage writes them are `Option` fields.
- `call_llm` is an oracle parameter `Llm : String → Except String String`;
  `Except.error` models the call raising an exception with that message.
- A stage that raises mid-way may already have mutated the shared dict, so a
  node returns `Except (String × RState) RState`: the error carries the state
  as of the raise (the partially mutated dict the `except` handler sees).
- The SQL checkpoint table becomes a list in insertion order; `uuid4` id
  generation is a parameter `idGen : Nat → String`, and `datetime.utcnow`
  is modelled by a strictly increasing counter used as the timestamp.
-/

set_option autoImplicit false

namespace Cerina

/-- One entry of `draft_versions`: the dict `{"version": ..., "text": ...}`
appended by `draftsman_node`. -/
structure DraftVersion where
  version : Nat
  text : String
  deriving Repr, DecidableEq

/-- The run-state dictionary threaded through the stages.  Fields present in
the initial state built by `start_run` are plain; fields first written by a
later stage (or by the approval route) are `Option`s defaulting to `none`
(key absent). -/
structure RState where
  run_id : String
  intent_text : String
  status : String
  draft_versions : List DraftVersion
  iteration_count : Nat
  current_draft_text : String
  safety_flags : List String
  safety_score : Option Nat := none
  safety_check_text : Option String := none
  critic_text : Option String := none
  proposed_revision : Option String := none
  approved_text : Option String := none
  deriving Repr, DecidableEq

/-- The LLM oracle: `call_llm prompt` either returns generated text or raises
(an `Except.error` carrying the exception message). -/
def Llm : Type := String → Except String String

/-- `draftsman_node` from `orchestrator_langgraph_true.py`: one `call_llm`,
then sets `current_draft_text`, appends
`{"version": iteration_count + 1, "text": out}` to `draft_versions`, and
increments `iteration_count`.  The LLM call happens before any mutation, so a
raise leaves the state unchanged. -/
def draftsman_node (llm : Llm) (s : RState) : Except (String × RState) RState :=
  match llm ("Create a short CBT exercise based on: " ++ s.intent_text) with
  | Except.error e => Except.error (e, s)
  | Except.ok out =>
      Except.ok { s with
        current_draft_text := out,
        draft_versions := s.draft_versions ++ [⟨s.iteration_count + 1, out⟩],
        iteration_count := s.iteration_count + 1 }

/-- `safety_guardian_node`: one `call_llm`, then sets `safety_check_text` and
`setdefault`s `safety_flags` (a no-op here since the field always exists). -/
def safety_guardian_node (llm : Llm) (s : RState) : Except (String × RState) RState :=
  match llm ("Check this draft for safety: " ++ s.current_draft_text) with
  | Except.error e => Except.error (e, s)
  | Except.ok out => Except.ok { s with safety_check_text := some out }

/-- `clinical_critic_node`: two `call_llm` calls; the first sets
`critic_text`, the second sets `proposed_revision`.  A raise in the second
call leaves `critic_text` already mutated. -/
def clinical_critic_node (llm : Llm) (s : RState) : Except (String × RState) RState :=
  match llm ("Critique the draft for empathy & clarity and suggest revision:\n\n"
      ++ s.current_draft_text) with
  | Except.error e => Except.error (e, s)
  | Except.ok out =>
      let s1 : RState := { s with critic_text := some out }
      match llm ("Revise the following for empathy and clarity:\n\n"
          ++ s.current_draft_text ++ "\n\nCritic notes:\n" ++ out) with
      | Except.error e => Except.error (e, s1)
      | Except.ok rev => Except.ok { s1 with proposed_revision := some rev }

/-- `supervisor_node`: pure, sets `status = "paused_for_human"`. -/
def supervisor_node (s : RState) : RState :=
  { s with status := "paused_for_human" }

/-- Row of the `RunCheckpoint` SQL table (`db_models.py`): `id` is a
`uuid4()` string primary key, `timestamp` a creation time. -/
structure RunCheckpoint where
  id : String
  run_id : String
  agent_name : String
  timestamp : Nat
  state_snapshot : RState
  note : String
  deriving Repr, DecidableEq

/-- The checkpoint database: rows in insertion order plus the clock/uuid
counter. -/
structure Store where
  checkpoints : List RunCheckpoint
  counter : Nat
  deriving Repr, DecidableEq

/-- `save_checkpoint` (`checkpointer.py`): inserts one new row, with a fresh
`id` drawn from `idGen` and the current clock tick as `timestamp`. -/
def save_checkpoint (idGen : Nat → String) (st : Store) (rid agent : String)
    (state : RState) (note : String) : Store :=
  { checkpoints := st.checkpoints ++
      [{ id := idGen st.counter, run_id := rid, agent_name := agent,
         timestamp := st.counter, state_snapshot := state, note := note }],
    counter := st.counter + 1 }

/-- Accumulator step of the `ORDER BY timestamp DESC ... first()` query:
keep the row with the later timestamp (on a tie the earlier row is kept; SQL
leaves tie order unspecified, and the model's clock is strictly increasing so
ties do not arise on stored data). -/
def pick_later (acc : Option RunCheckpoint) (c : RunCheckpoint) : Option RunCheckpoint :=
  match acc with
  | none => some c
  | some b => if b.timestamp < c.timestamp then some c else some b

/-- `load_last_checkpoint` (`checkpointer.py`):
`SELECT ... WHERE run_id = rid ORDER BY timestamp DESC` then `.first()`. -/
def load_last_checkpoint (cps : List RunCheckpoint) (rid : String) : Option RunCheckpoint :=
  (cps.filter (fun c => c.run_id == rid)).foldl pick_later none

/-- The fixed node list of `FallbackGraph.__init__`. -/
def nodes (llm : Llm) : List (String × (RState → Except (String × RState) RState)) :=
  [ ("Draftsman", draftsman_node llm),
    ("SafetyGuardian", safety_guardian_node llm),
    ("ClinicalCritic", clinical_critic_node llm),
    ("supervisor", fun s => Except.ok (supervisor_node s)) ]

/-- The stage loop of `FallbackGraph.start_run`: on success checkpoint the
new state with note `"<name> completed"` and continue; on a raise checkpoint
the state as of the failure with note `"<name> error: <e>"` and re-raise. -/
def run_stages_start (idGen : Nat → String) (rid : String) :
    List (String × (RState → Except (String × RState) RState)) → RState → Store →
      Store × Except String RState
  | [], s, st => (st, Except.ok s)
  | (name, fn) :: rest, s, st =>
    match fn s with
    | Except.ok s1 =>
        run_stages_start idGen rid rest s1
          (save_checkpoint idGen st rid name s1 (name ++ " completed"))
    | Except.error (e, sErr) =>
        (save_checkpoint idGen st rid name sErr (name ++ " error: " ++ e), Except.error e)

/-- The initial state dictionary built by `FallbackGraph.start_run`. -/
def initial_state (rid intent : String) : RState :=
  { run_id := rid, intent_text := intent, status := "running",
    draft_versions := [], iteration_count := 0, current_draft_text := "",
    safety_flags := [], safety_score := none }

/-- `FallbackGraph.start_run`: fresh `run_id` (passed in, standing for
`uuid4()`), initial state, `"starter"` checkpoint, then the stage loop.
Returns the updated store and either the run id or the propagated
exception. -/
def start_run (llm : Llm) (idGen : Nat → String) (rid intent : String) (st : Store) :
    Store × Except String String :=
  let s := initial_state rid intent
  let st1 := save_checkpoint idGen st rid "starter" s "run started"
  match run_stages_start idGen rid (nodes llm) s st1 with
  | (st2, Except.ok _) => (st2, Except.ok rid)
  | (st2, Except.error e) => (st2, Except.error e)

/-- The `for idx,(name,_) in enumerate(self.nodes): if name == last: ...`
search of `resume_run`, with running index. -/
def find_idx_from (last : String) (idx : Nat) : List String → Option Nat
  | [] => none
  | n :: rest => if n == last then some idx else find_idx_from last (idx + 1) rest

/-- Resume index: one past the first node whose name matches the latest
checkpoint's `agent_name`; `0` when the name is not in the node list. -/
def find_start_idx (names : List String) (last : String) : Nat :=
  match find_idx_from last 0 names with
  | some i => i + 1
  | none => 0

/-- The stage loop of `FallbackGraph.resume_run`: like the start loop but
with note `"<name> resumed/completed"`, and no `try/except` — a raise
propagates without writing a failure checkpoint. -/
def run_stages_resume (idGen : Nat → String) (rid : String) :
    List (String × (RState → Except (String × RState) RState)) → RState → Store →
      Store × Except String RState
  | [], s, st => (st, Except.ok s)
  | (name, fn) :: rest, s, st =>
    match fn s with
    | Except.ok s1 =>
        run_stages_resume idGen rid rest s1
          (save_checkpoint idGen st rid name s1 (name ++ " resumed/completed"))
    | Except.error (e, _) => (st, Except.error e)

/-- `FallbackGraph.resume_run`: load the latest checkpoint (raise
`"run not found"` if none), locate the resume index from its `agent_name`,
and run the remaining stages on its snapshot. -/
def resume_run (llm : Llm) (idGen : Nat → String) (rid : String) (st : Store) :
    Store × Except String RState :=
  match load_last_checkpoint st.checkpoints rid with
  | none => (st, Except.error "run not found")
  | some cp =>
      run_stages_resume idGen rid
        ((nodes llm).drop (find_start_idx ((nodes llm).map (fun p => p.1)) cp.agent_name))
        cp.state_snapshot st

/-- The `/approve/{run_id}` route (`main.py`): load latest checkpoint (404 if
none), set `approved_text` (payload text, defaulting to the current draft)
and `status = "approved_by_human"`, save a `"human"` checkpoint, then call
`resume_run`. -/
def approve (llm : Llm) (idGen : Nat → String) (rid : String)
    (payloadText : Option String) (st : Store) : Store × Except String RState :=
  match load_last_checkpoint st.checkpoints rid with
  | none => (st, Except.error "run not found")
  | some cp =>
      let s0 := cp.state_snapshot
      let s1 : RState := { s0 with
        approved_text := some (payloadText.getD s0.current_draft_text),
        status := "approved_by_human" }
      let st1 := save_checkpoint idGen st rid "human" s1 "approved by human"
      resume_run llm idGen rid st1

/-- Event payload yielded by the SSE `event_stream` in `main.py`:
`{"agent": ..., "timestamp": ..., "note": ..., "state": ...}`. -/
structure FeedEvent where
  agent : String
  timestamp : Nat
  note : String
  state : RState
  deriving Repr, DecidableEq

/-- Build the SSE payload from a checkpoint row. -/
def payload_of (c : RunCheckpoint) : FeedEvent :=
  { agent := c.agent_name, timestamp := c.timestamp, note := c.note,
    state := c.state_snapshot }

/-- One iteration of the `event_stream` polling loop: observe
`load_last_checkpoint`; `if cp and cp.id != last_seen`, emit the payload and
update `last_seen`; otherwise emit nothing. -/
def feed_poll (last_seen : Option String) (cp : Option RunCheckpoint) :
    Option String × Option FeedEvent :=
  match cp with
  | none => (last_seen, none)
  | some c =>
      if some c.id ≠ last_seen then (some c.id, some (payload_of c))
      else (last_seen, none)

/-- The whole polling loop of `event_stream` over a finite list of
observations (the value `load_last_checkpoint` returned at each poll),
collecting the emitted events in order.  `last_seen` starts as `none`. -/
def feed_run (last_seen : Option String) :
    List (Option RunCheckpoint) → List FeedEvent
  | [] => []
  | cp :: rest =>
    match feed_poll last_seen cp with
    | (ls, some ev) => ev :: feed_run ls rest
    | (ls, none) => feed_run ls rest

/-!
Engine capability probe (`try_build_langgraph_graph`) and orchestrator
construction (`create_true_or_fallback_orchestrator`).  The Python runtime
environment is modelled explicitly: importing a module either raises or
yields a module; `getattr(mod, name, None)` either finds no attribute, or
finds a class whose zero-argument construction raises or yields an object
described by its capability shape (`hasattr` answers).
-/

/-- The `hasattr` answers of a candidate graph/builder object, plus one
abstracted bit: whether `register_node`'s call-shape permutations succeed on
it (the adapter tries `add(name, func)`, `add(func, name=name)`,
`add(name, handler=func)`; the model keeps only whether any succeeds). -/
structure GraphShape where
  has_add_node : Bool
  has_add_edge : Bool
  has_run : Bool
  has_execute : Bool
  has_start : Bool
  has_add_task : Bool
  has_build : Bool
  registration_ok : Bool
  deriving Repr, DecidableEq

/-- Outcome of `importlib.import_module(name)`: the import raises, or a
module whose attribute lookup maps a class name to `none` (absent),
`some (Except.error e)` (constructor raised) or `some (Except.ok g)`
(instance with capability shape `g`). -/
inductive PyModule where
  | missing
  | module (attrs : String → Option (Except String GraphShape))

/-- A Python environment: what each candidate module name imports to. -/
def PyEnv : Type := String → PyModule

/-- The class names probed first, in order. -/
def probe_class_names : List String := ["StateGraph", "Graph", "LangGraph", "Workflow"]

/-- The builder names probed second, in order. -/
def probe_builder_names : List String :=
  ["StateGraphBuilder", "GraphBuilder", "WorkflowBuilder"]

/-- The candidate module names, in priority order. -/
def probe_candidates : List String :=
  ["langgraph", "langgraph.sdk", "langgraph.prebuilt", "langgraph_sdk"]

/-- A successful probe result: the bound graph object (by shape) plus the
detected add-method and run-method names. -/
def EngineHandle : Type := GraphShape × String × String

/-- The shape test applied to an instantiated class: `add_node`+`add_edge`
with a run entry point, else `add_task` with a run entry point. -/
def shape_match_class (g : GraphShape) : Option (String × String) :=
  if g.has_add_node && g.has_add_edge && (g.has_run || g.has_execute || g.has_start) then
    some ("add_node",
      if g.has_run then "run" else if g.has_execute then "execute" else "start")
  else if g.has_add_task && (g.has_run || g.has_execute) then
    some ("add_task", if g.has_run then "run" else "execute")
  else none

/-- The shape test applied to an instantiated builder: `add_node` with
`build` or `run`. -/
def shape_match_builder (g : GraphShape) : Option (String × String) :=
  if g.has_add_node && (g.has_build || g.has_run) then
    some ("add_node", if g.has_run then "run" else "build")
  else none

/-- One `for clsname in (...)` loop: skip absent attributes, swallow
constructor exceptions (`except Exception: continue`), return on the first
shape match. -/
def probe_names (attrs : String → Option (Except String GraphShape))
    (matcher : GraphShape → Option (String × String)) :
    List String → Option EngineHandle
  | [] => none
  | n :: rest =>
    match attrs n with
    | none => probe_names attrs matcher rest
    | some (Except.error _) => probe_names attrs matcher rest
    | some (Except.ok g) =>
      match matcher g with
      | some (a, r) => some (g, a, r)
      | none => probe_names attrs matcher rest

/-- The outer `for modname in candidates` loop: an import failure is
swallowed (`except Exception: continue`); within a module, the class shapes
are tried first, then the builder shapes. -/
def probe_modules (env : PyEnv) : List String → Option EngineHandle
  | [] => none
  | m :: rest =>
    match env m with
    | PyModule.missing => probe_modules env rest
    | PyModule.module attrs =>
      match probe_names attrs shape_match_class probe_class_names with
      | some h => some h
      | none =>
        match probe_names attrs shape_match_builder probe_builder_names with
        | some h => some h
        | none => probe_modules env rest

/-- `try_build_langgraph_graph`: returns a bound handle on success, `None`
otherwise; every exception along the way is swallowed. -/
def try_build_langgraph_graph (env : PyEnv) : Option EngineHandle :=
  probe_modules env probe_candidates

/-- The orchestrator chosen at process start: the `FallbackGraph`
sequential executor, or the `LangGraphSDKWrapper` around a probed engine. -/
inductive Orch where
  | fallback
  | sdkWrapper (h : EngineHandle)

/-- `create_true_or_fallback_orchestrator`: no probe result, or any node
registration failure, yields the `FallbackGraph`; otherwise the SDK
wrapper.  (All four `register_node` calls target the same graph object, so
their joint success is the handle's `registration_ok` bit.) -/
def create_true_or_fallback_orchestrator (env : PyEnv) : Orch :=
  match try_build_langgraph_graph env with
  | none => Orch.fallback
  | some h => if h.1.registration_ok then Orch.sdkWrapper h else Orch.fallback

/-- Facade dispatch for `start_run`.  The SDK-wrapper branch depends on the
external engine's run semantics, abstracted as the parameter
`engineStart`; no claim constrains that branch. -/
def orch_start_run (llm : Llm) (idGen : Nat → String)
    (engineStart : EngineHandle → String → String → Store → Store × Except String String) :
    Orch → String → String → Store → Store × Except String String
  | Orch.fallback, rid, intent, st => start_run llm idGen rid intent st
  | Orch.sdkWrapper h, rid, intent, st => engineStart h rid intent st

/-- Facade dispatch for `resume_run`, with the SDK-wrapper branch likewise
abstracted. -/
def orch_resume_run (llm : Llm) (idGen : Nat → String)
    (engineResume : EngineHandle → String → Store → Store × Except String RState) :
    Orch → String → Store → Store × Except String RState
  | Orch.fallback, rid, st => resume_run llm idGen rid st
  | Orch.sdkWrapper h, rid, st => engineResume h rid st

/-! ### Helper lemmas about the checkpoint store's latest-row query -/

theorem pick_later_ne_none (acc : Option RunCheckpoint) (c : RunCheckpoint) :
    pick_later acc c ≠ none := by
  cases acc with
  | none => simp [pick_later]
  | some b => simp only [pick_later]; split <;> simp

theorem foldl_pick_eq_none : ∀ (l : List RunCheckpoint) (acc : Option RunCheckpoint),
    l.foldl pick_later acc = none ↔ l = [] ∧ acc = none := by
  intro l
  induction l with
  | nil => intro acc; simp
  | cons c t ih =>
      intro acc
      simp only [List.foldl_cons, ih]
      constructor
      · rintro ⟨-, hp⟩; exact absurd hp (pick_later_ne_none acc c)
      · rintro ⟨h, -⟩; simp at h

theorem foldl_pick_max : ∀ (l : List RunCheckpoint) (acc : Option RunCheckpoint)
    (cp : RunCheckpoint), l.foldl pick_later acc = some cp →
    (cp ∈ l ∨ acc = some cp) ∧ (∀ c ∈ l, c.timestamp ≤ cp.timestamp) ∧
    (∀ b, acc = some b → b.timestamp ≤ cp.timestamp) := by
  intro l
  induction l with
  | nil =>
      intro acc cp h
      simp only [List.foldl_nil] at h
      refine ⟨Or.inr h, by simp, fun b hb => ?_⟩
      rw [h] at hb
      injection hb with hh
      subst hh
      exact Nat.le_refl _
  | cons c t ih =>
      intro acc cp h
      simp only [List.foldl_cons] at h
      obtain ⟨hmem, hmax, hacc⟩ := ih (pick_later acc c) cp h
      cases acc with
      | none =>
          simp only [pick_later] at hmem hacc
          have hc : c.timestamp ≤ cp.timestamp := hacc c rfl
          refine ⟨?_, ?_, fun b hb => by cases hb⟩
          · rcases hmem with hm | hm
            · exact Or.inl (List.mem_cons_of_mem _ hm)
            · injection hm with hh; subst hh; exact Or.inl (List.mem_cons_self _ _)
          · intro x hx
            rcases List.mem_cons.mp hx with hx | hx
            · subst hx; exact hc
            · exact hmax x hx
      | some b =>
          by_cases hbc : b.timestamp < c.timestamp
          · simp only [pick_later, if_pos hbc] at hmem hacc
            have hc : c.timestamp ≤ cp.timestamp := hacc c rfl
            refine ⟨?_, ?_, ?_⟩
            · rcases hmem with hm | hm
              · exact Or.inl (List.mem_cons_of_mem _ hm)
              · injection hm with hh; subst hh; exact Or.inl (List.mem_cons_self _ _)
            · intro x hx
              rcases List.mem_cons.mp hx with hx | hx
              · subst hx; exact hc
              · exact hmax x hx
            · intro b2 hb2
              injection hb2 with hh
              subst hh
              exact Nat.le_trans (Nat.le_of_lt hbc) hc
          · simp only [pick_later, if_neg hbc] at hmem hacc
            have hb : b.timestamp ≤ cp.timestamp := hacc b rfl
            refine ⟨?_, ?_, ?_⟩
            · rcases hmem with hm | hm
              · exact Or.inl (List.mem_cons_of_mem _ hm)
              · exact Or.inr hm
            · intro x hx
              rcases List.mem_cons.mp hx with hx | hx
              · subst hx; exact Nat.le_trans (Nat.le_of_not_lt hbc) hb
              · exact hmax x hx
            · intro b2 hb2
              injection hb2 with hh
              subst hh
              exact hb

theorem load_last_eq_none_iff (cps : List RunCheckpoint) (rid : String) :
    load_last_checkpoint cps rid = none ↔
      cps.filter (fun c => c.run_id == rid) = [] := by
  unfold load_last_checkpoint
  rw [foldl_pick_eq_none]
  simp

theorem load_last_mem_max (cps : List RunCheckpoint) (rid : String) (cp : RunCheckpoint)
    (h : load_last_checkpoint cps rid = some cp) :
    cp ∈ cps.filter (fun c => c.run_id == rid) ∧
      ∀ c ∈ cps.filter (fun c => c.run_id == rid), c.timestamp ≤ cp.timestamp := by
  obtain ⟨hmem, hmax, -⟩ := foldl_pick_max _ _ _ h
  refine ⟨?_, hmax⟩
  rcases hmem with hm | hm
  · exact hm
  · exact Option.noConfusion hm

theorem load_last_append (A B : List RunCheckpoint) (rid : String) :
    load_last_checkpoint (A ++ B) rid =
      (B.filter (fun c => c.run_id == rid)).foldl pick_later
        (load_last_checkpoint A rid) := by
  unfold load_last_checkpoint
  rw [List.filter_append, List.foldl_append]

/-! ### Concrete instruments used by witnesses -/

/-- A concrete always-succeeding LLM oracle. -/
def llm0 : Llm := fun _ => Except.ok "txt"

/-- A concrete id generator standing in for `uuid4()`. -/
def idGen0 : Nat → String := fun n => "id" ++ Nat.repr n

/-- An empty checkpoint database. -/
def store0 : Store := { checkpoints := [], counter := 0 }

/-! ### Claim theorems -/

/-- Claim C2: when the latest checkpoint of a run carries the name of the
last stage (`"supervisor"`), `resume_run` is a no-op: it returns that
checkpoint's `state_snapshot` unchanged, executes no stage, and appends no
checkpoint (the store is returned untouched). -/
theorem C2_resume_after_supervisor_noop (llm : Llm) (idGen : Nat → String)
    (rid : String) (st : Store) (cp : RunCheckpoint)
    (hload : load_last_checkpoint st.checkpoints rid = some cp)
    (hname : cp.agent_name = "supervisor") :
    resume_run llm idGen rid st = (st, Except.ok cp.state_snapshot) := by
  simp only [resume_run, hload]
  rw [hname]
  rfl

/-- The latest checkpoint of a run paused at the supervisor stage, used to
witness C2. -/
def c2_cp : RunCheckpoint :=
  { id := "id4", run_id := "r", agent_name := "supervisor", timestamp := 4,
    state_snapshot := supervisor_node (initial_state "r" "sleep"),
    note := "supervisor completed" }

/-- A store holding only the C2 checkpoint. -/
def c2_store : Store := { checkpoints := [c2_cp], counter := 5 }

/-- Witness for C2 at a concrete paused run. -/
theorem C2_resume_after_supervisor_noop_witness :
    resume_run llm0 idGen0 "r" c2_store = (c2_store, Except.ok c2_cp.state_snapshot) :=
  C2_resume_after_supervisor_noop llm0 idGen0 "r" c2_store c2_cp (by rfl) (by rfl)

/-- Claim C6: `resume_run` on a `run_id` with no checkpoints raises
`"run not found"` and writes nothing to the store. -/
theorem C6_resume_unknown_run (llm : Llm) (idGen : Nat → String)
    (rid : String) (st : Store)
    (hnone : load_last_checkpoint st.checkpoints rid = none) :
    resume_run llm idGen rid st = (st, Except.error "run not found") := by
  unfold resume_run
  rw [hnone]

/-- Witness for C6 on the empty store. -/
theorem C6_resume_unknown_run_witness :
    resume_run llm0 idGen0 "r" store0 = (store0, Except.error "run not found") :=
  C6_resume_unknown_run llm0 idGen0 "r" store0 (by rfl)

/-- Claim C10: when the latest checkpoint carries the name of stage `i`
(which is how a failure checkpoint for stage `i` is written), `resume_run`
resumes at stage `i + 1` on that checkpoint's snapshot — stage `i` itself is
not re-executed — and when stage `i` is the last stage the resume is a no-op
returning the snapshot with the store untouched. -/
theorem C10_resume_after_failure_skips_failed_stage (llm : Llm)
    (idGen : Nat → String) (rid : String) (st : Store) (cp : RunCheckpoint)
    (i : Nat) (hi : i < (nodes llm).length)
    (hload : load_last_checkpoint st.checkpoints rid = some cp)
    (hname : cp.agent_name = ((nodes llm).get ⟨i, hi⟩).1) :
    resume_run llm idGen rid st =
      run_stages_resume idGen rid ((nodes llm).drop (i + 1)) cp.state_snapshot st ∧
    (i = 3 → resume_run llm idGen rid st = (st, Except.ok cp.state_snapshot)) := by
  have hi4 : i < 4 := hi
  simp only [resume_run, hload]
  interval_cases i <;> refine ⟨by rw [hname]; rfl, ?_⟩ <;> intro h3
  · exact absurd h3 (by decide)
  · exact absurd h3 (by decide)
  · exact absurd h3 (by decide)
  · rw [hname]; rfl

/-- The latest checkpoint of a run whose `ClinicalCritic` stage failed, used
to witness C10. -/
def c10_cp : RunCheckpoint :=
  { id := "id3", run_id := "r", agent_name := "ClinicalCritic", timestamp := 3,
    state_snapshot := initial_state "r" "sleep",
    note := "ClinicalCritic error: boom" }

/-- A store holding only the C10 failure checkpoint. -/
def c10_store : Store := { checkpoints := [c10_cp], counter := 4 }

/-- Witness for C10 at a concrete failed run (failure at stage index 2). -/
theorem C10_resume_after_failure_skips_failed_stage_witness :
    resume_run llm0 idGen0 "r" c10_store =
      run_stages_resume idGen0 "r" ((nodes llm0).drop 3) c10_cp.state_snapshot
        c10_store ∧
    ((2 : Nat) = 3 → resume_run llm0 idGen0 "r" c10_store =
      (c10_store, Except.ok c10_cp.state_snapshot)) :=
  C10_resume_after_failure_skips_failed_stage llm0 idGen0 "r" c10_store c10_cp 2
    (by decide) (by rfl) (by rfl)

/-- N successive executions of `draftsman_node`, stopping at the first
raise (as any surrounding driver would). -/
def iterate_draftsman (llm : Llm) : Nat → RState → Except (String × RState) RState
  | 0, s => Except.ok s
  | n + 1, s =>
    match draftsman_node llm s with
    | Except.ok s1 => iterate_draftsman llm n s1
    | Except.error e => Except.error e

/-- Invariant of the draft-producing stage: each successful execution adds
one to `iteration_count` and appends one version numbered
`iteration_count + 1`. -/
theorem iterate_draftsman_invariant (llm : Llm) : ∀ (n : Nat) (s s1 : RState),
    iterate_draftsman llm n s = Except.ok s1 →
    s1.iteration_count = s.iteration_count + n ∧
    s1.draft_versions.map (fun d => d.version) =
      s.draft_versions.map (fun d => d.version) ++
        List.range' (s.iteration_count + 1) n := by
  intro n
  induction n with
  | zero =>
      intro s s1 h
      simp only [iterate_draftsman] at h
      injection h with h
      subst h
      simp
  | succ n ih =>
      intro s s1 h
      simp only [iterate_draftsman] at h
      cases hd : draftsman_node llm s with
      | error e => rw [hd] at h; cases h
      | ok s2 =>
          rw [hd] at h
          obtain ⟨hcount, hvers⟩ := ih s2 s1 h
          have hs2 : s2.iteration_count = s.iteration_count + 1 ∧
              s2.draft_versions =
                s.draft_versions ++ [⟨s.iteration_count + 1, s2.current_draft_text⟩] := by
            unfold draftsman_node at hd
            cases hllm : llm ("Create a short CBT exercise based on: " ++ s.intent_text) with
            | error e => rw [hllm] at hd; cases hd
            | ok out =>
                rw [hllm] at hd
                injection hd with hd
                subst hd
                exact ⟨rfl, rfl⟩
          obtain ⟨hc2, hv2⟩ := hs2
          constructor
          · rw [hcount, hc2]; omega
          · rw [hvers, hv2, hc2]
            simp [List.range'_succ, List.append_assoc]

/-- Claim C9: after `N` successful executions of the draft-producing stage
starting from the initial State, `iteration_count = N` and
`draft_versions` has exactly `N` entries whose versions are `1..N` in
order. -/
theorem C9_draft_versions_one_to_n (llm : Llm) (rid intent : String) (n : Nat)
    (s : RState)
    (h : iterate_draftsman llm n (initial_state rid intent) = Except.ok s) :
    s.iteration_count = n ∧
    s.draft_versions.length = n ∧
    s.draft_versions.map (fun d => d.version) = List.range' 1 n := by
  obtain ⟨hc, hv⟩ := iterate_draftsman_invariant llm n (initial_state rid intent) s h
  simp only [initial_state, List.map_nil, List.nil_append, Nat.zero_add] at hc hv
  refine ⟨hc, ?_, hv⟩
  have := congrArg List.length hv
  simpa using this

/-- The state after two concrete draft iterations, used to witness C9. -/
def c9_state : RState :=
  match iterate_draftsman llm0 2 (initial_state "r" "sleep") with
  | Except.ok s => s
  | Except.error _ => initial_state "r" "sleep"

/-- Witness for C9 with two successful draft executions. -/
theorem C9_draft_versions_one_to_n_witness :
    iterate_draftsman llm0 2 (initial_state "r" "sleep") = Except.ok c9_state ∧
    c9_state.iteration_count = 2 ∧
    c9_state.draft_versions.length = 2 ∧
    c9_state.draft_versions.map (fun d => d.version) = List.range' 1 2 := by
  have h : iterate_draftsman llm0 2 (initial_state "r" "sleep") = Except.ok c9_state := by
    rfl
  exact ⟨h, C9_draft_versions_one_to_n llm0 "r" "sleep" 2 c9_state h⟩

/-- An earlier-created checkpoint whose random uuid `id` happens to sort
higher; refutes the greatest-`id` reading of the latest query. -/
def c3_cpA : RunCheckpoint :=
  { id := "b", run_id := "r", agent_name := "starter", timestamp := 0,
    state_snapshot := initial_state "r" "sleep", note := "run started" }

/-- A later-created checkpoint whose random uuid `id` sorts lower. -/
def c3_cpB : RunCheckpoint :=
  { id := "a", run_id := "r", agent_name := "Draftsman", timestamp := 1,
    state_snapshot := initial_state "r" "sleep", note := "Draftsman completed" }

/-- Counterexample to claim C3 as stated: `load_last_checkpoint` does not
return the checkpoint with the greatest `id` — checkpoint ids are random
uuid strings, not creation-ordered, and the query orders by `timestamp`.
Here the run's store holds ids `"b"` (older row) and `"a"` (newer row); the
latest query returns the row with id `"a"` although `"a" < "b"`. -/
theorem C3_counterexample_latest_not_greatest_id :
    load_last_checkpoint [c3_cpA, c3_cpB] "r" = some c3_cpB ∧
    c3_cpA ∈ [c3_cpA, c3_cpB] ∧ c3_cpA.run_id = "r" ∧ c3_cpB.id < c3_cpA.id := by
  refine ⟨by rfl, by simp, by rfl, ?_⟩
  show ("a" : String) < "b"
  rw [String.lt_iff_toList_lt]
  decide

/-- Claim C3 (amended): for every `run_id`, `load_last_checkpoint` returns a
checkpoint of that run with the greatest `timestamp` (creation order is
timestamp order, the store clock being strictly increasing), and returns
`none` exactly when the run has no checkpoints. -/
theorem C3_latest_is_max_timestamp (cps : List RunCheckpoint) (rid : String) :
    (load_last_checkpoint cps rid = none ↔
      cps.filter (fun c => c.run_id == rid) = []) ∧
    ∀ cp, load_last_checkpoint cps rid = some cp →
      cp ∈ cps ∧ cp.run_id = rid ∧
      ∀ c ∈ cps, c.run_id = rid → c.timestamp ≤ cp.timestamp := by
  refine ⟨load_last_eq_none_iff cps rid, fun cp h => ?_⟩
  obtain ⟨hmem, hmax⟩ := load_last_mem_max cps rid cp h
  rw [List.mem_filter] at hmem
  refine ⟨hmem.1, by simpa using hmem.2, fun c hc hcr => ?_⟩
  exact hmax c (List.mem_filter.mpr ⟨hc, by simpa using hcr⟩)

/-- Witness for C3 (amended) on a concrete two-row store. -/
theorem C3_latest_is_max_timestamp_witness :
    (load_last_checkpoint ([] : List RunCheckpoint) "r" = none ↔
      ([] : List RunCheckpoint).filter (fun c => c.run_id == "r") = []) ∧
    c3_cpB ∈ [c3_cpA, c3_cpB] ∧ c3_cpB.run_id = "r" ∧
    ∀ c ∈ [c3_cpA, c3_cpB], c.run_id = "r" → c.timestamp ≤ c3_cpB.timestamp := by
  refine ⟨(C3_latest_is_max_timestamp [] "r").1, ?_⟩
  exact (C3_latest_is_max_timestamp [c3_cpA, c3_cpB] "r").2 c3_cpB (by rfl)

/-- Claim C7: the capability probe is total over every modelled environment
(import failures, absent attributes, raising constructors and non-matching
shapes are all swallowed): it either returns a bound handle, or returns
nothing — and in the latter case orchestrator construction yields the
sequential executor, whose `start_run`/`resume_run` the facade dispatches
verbatim, whatever semantics the external engine branch would have had. -/
theorem C7_probe_total_and_fallback (env : PyEnv) :
    (∃ h, try_build_langgraph_graph env = some h) ∨
    (try_build_langgraph_graph env = none ∧
      create_true_or_fallback_orchestrator env = Orch.fallback ∧
      ∀ (llm : Llm) (idGen : Nat → String)
        (engineStart : EngineHandle → String → String → Store → Store × Except String String)
        (engineResume : EngineHandle → String → Store → Store × Except String RState)
        (rid intent : String) (st : Store),
        orch_start_run llm idGen engineStart
            (create_true_or_fallback_orchestrator env) rid intent st =
          start_run llm idGen rid intent st ∧
        orch_resume_run llm idGen engineResume
            (create_true_or_fallback_orchestrator env) rid st =
          resume_run llm idGen rid st) := by
  cases hp : try_build_langgraph_graph env with
  | some h => exact Or.inl ⟨h, rfl⟩
  | none =>
      have hc : create_true_or_fallback_orchestrator env = Orch.fallback := by
        unfold create_true_or_fallback_orchestrator
        rw [hp]
      refine Or.inr ⟨rfl, hc, ?_⟩
      intro llm idGen engineStart engineResume rid intent st
      rw [hc]
      exact ⟨rfl, rfl⟩

/-- The checkpoint store of a run driven to the human pause and then
through the `/approve` route, under the concrete oracle `llm0`: the input
the C5 evaluation inspects. -/
def c5_paused_store : Store := (start_run llm0 idGen0 "r" "sleep" store0).1

/-- The `/approve` call on the paused run: saves the `"human"` checkpoint
and calls `resume_run`. -/
def c5_approved : Store × Except String RState :=
  approve llm0 idGen0 "r" none c5_paused_store

/-- Claim C5, evaluated on the code: on a `paused_for_human` run
(one completed `start_run`: 5 checkpoints, `iteration_count = 1`, one draft
version), the `/approve` route appends the `"human"` checkpoint and
`resume_run` then re-executes all four stages from index 0 — the `"human"`
agent name is not in the node list, so the resume index defaults to 0.  The
final state has `iteration_count = 2`, two draft versions and status
`"paused_for_human"` again (not a completion status), and the store ends
with 10 checkpoints whose last four repeat the full stage sequence. -/
theorem C5_approve_reruns_pipeline :
    c5_paused_store.checkpoints.length = 5 ∧
    (load_last_checkpoint c5_paused_store.checkpoints "r").map
        (fun c => (c.agent_name, c.state_snapshot.status, c.state_snapshot.iteration_count)) =
      some ("supervisor", "paused_for_human", 1) ∧
    c5_approved.2.toOption.map
        (fun s => (s.status, s.iteration_count, s.draft_versions.length)) =
      some ("paused_for_human", 2, 2) ∧
    c5_approved.1.checkpoints.length = 10 ∧
    c5_approved.1.checkpoints.map (fun c => c.agent_name) =
      ["starter", "Draftsman", "SafetyGuardian", "ClinicalCritic", "supervisor",
       "human", "Draftsman", "SafetyGuardian", "ClinicalCritic", "supervisor"] := by
  refine ⟨by rfl, by rfl, by rfl, by rfl, by rfl⟩

/-- Claim C1: with no stage raising, `start_run` builds the initial State
(`status = "running"`, no draft versions, `iteration_count = 0`), appends a
`"starter"` checkpoint, executes the four stages in order appending one
checkpoint each — exactly 5 checkpoints for the fresh run — and the last
checkpoint's state has `status = "paused_for_human"`; the call returns the
run id. -/
theorem C1_start_run_five_checkpoints (llm : Llm) (idGen : Nat → String)
    (rid intent : String) (st : Store)
    (hllm : ∀ p, ∃ t, llm p = Except.ok t)
    (hfresh : st.checkpoints.filter (fun c => c.run_id == rid) = []) :
    (start_run llm idGen rid intent st).2 = Except.ok rid ∧
    ((start_run llm idGen rid intent st).1.checkpoints.filter
        (fun c => c.run_id == rid)).map (fun c => c.agent_name) =
      ["starter", "Draftsman", "SafetyGuardian", "ClinicalCritic", "supervisor"] ∧
    ((start_run llm idGen rid intent st).1.checkpoints.filter
        (fun c => c.run_id == rid)).length = 5 ∧
    (((start_run llm idGen rid intent st).1.checkpoints.filter
        (fun c => c.run_id == rid)).head?).map (fun c => c.state_snapshot) =
      some (initial_state rid intent) ∧
    (initial_state rid intent).status = "running" ∧
    (initial_state rid intent).draft_versions = [] ∧
    (initial_state rid intent).iteration_count = 0 ∧
    (((start_run llm idGen rid intent st).1.checkpoints.filter
        (fun c => c.run_id == rid)).getLast?).map
        (fun c => c.state_snapshot.status) = some "paused_for_human" := by
  obtain ⟨t1, h1⟩ := hllm ("Create a short CBT exercise based on: " ++ intent)
  obtain ⟨t2, h2⟩ := hllm ("Check this draft for safety: " ++ t1)
  obtain ⟨t3, h3⟩ :=
    hllm ("Critique the draft for empathy & clarity and suggest revision:\n\n" ++ t1)
  obtain ⟨t4, h4⟩ :=
    hllm ("Revise the following for empathy and clarity:\n\n" ++ t1 ++
      "\n\nCritic notes:\n" ++ t3)
  simp only [start_run, nodes, run_stages_start, draftsman_node, safety_guardian_node,
    clinical_critic_node, supervisor_node, initial_state, save_checkpoint,
    h1, h2, h3, h4]
  simp [List.filter_append, hfresh]

/-- Witness for C1 at concrete inputs. -/
theorem C1_start_run_five_checkpoints_witness :
    (start_run llm0 idGen0 "r" "sleep" store0).2 = Except.ok "r" ∧
    ((start_run llm0 idGen0 "r" "sleep" store0).1.checkpoints.filter
        (fun c => c.run_id == "r")).map (fun c => c.agent_name) =
      ["starter", "Draftsman", "SafetyGuardian", "ClinicalCritic", "supervisor"] ∧
    ((start_run llm0 idGen0 "r" "sleep" store0).1.checkpoints.filter
        (fun c => c.run_id == "r")).length = 5 ∧
    (((start_run llm0 idGen0 "r" "sleep" store0).1.checkpoints.filter
        (fun c => c.run_id == "r")).head?).map (fun c => c.state_snapshot) =
      some (initial_state "r" "sleep") ∧
    (initial_state "r" "sleep").status = "running" ∧
    (initial_state "r" "sleep").draft_versions = [] ∧
    (initial_state "r" "sleep").iteration_count = 0 ∧
    (((start_run llm0 idGen0 "r" "sleep" store0).1.checkpoints.filter
        (fun c => c.run_id == "r")).getLast?).map
        (fun c => c.state_snapshot.status) = some "paused_for_human" :=
  C1_start_run_five_checkpoints llm0 idGen0 "r" "sleep" store0
    (fun _ => ⟨"txt", rfl⟩) (by rfl)

/-- The start loop over a split stage list: run the first part; on success
continue with the second part, on a raise stop with the failure already
checkpointed. -/
theorem run_stages_start_append (idGen : Nat → String) (rid : String) :
    ∀ (L1 L2 : List (String × (RState → Except (String × RState) RState)))
      (s : RState) (st : Store),
    run_stages_start idGen rid (L1 ++ L2) s st =
      (match run_stages_start idGen rid L1 s st with
       | (st1, Except.ok s1) => run_stages_start idGen rid L2 s1 st1
       | (st1, Except.error e) => (st1, Except.error e)) := by
  intro L1
  induction L1 with
  | nil => intro L2 s st; rfl
  | cons hd t ih =>
      intro L2 s st
      obtain ⟨name, fn⟩ := hd
      simp only [List.cons_append, run_stages_start]
      cases hfn : fn s with
      | ok s1 => exact ih L2 s1 _
      | error pr =>
          obtain ⟨e, sErr⟩ := pr
          rfl

/-- A successful start loop appends exactly one checkpoint per stage, named
after the stages in order, all under the given run id. -/
theorem run_stages_start_ok_decomp (idGen : Nat → String) (rid : String) :
    ∀ (L : List (String × (RState → Except (String × RState) RState)))
      (s : RState) (st st1 : Store) (s1 : RState),
    run_stages_start idGen rid L s st = (st1, Except.ok s1) →
    ∃ new, st1.checkpoints = st.checkpoints ++ new ∧
      new.map (fun c => c.agent_name) = L.map (fun p => p.1) ∧
      ∀ c ∈ new, c.run_id = rid := by
  intro L
  induction L with
  | nil =>
      intro s st st1 s1 h
      simp only [run_stages_start] at h
      injection h with h1 h2
      subst h1
      exact ⟨[], by simp, by simp, by simp⟩
  | cons hd t ih =>
      intro s st st1 s1 h
      obtain ⟨name, fn⟩ := hd
      simp only [run_stages_start] at h
      cases hfn : fn s with
      | error pr =>
          obtain ⟨e, sErr⟩ := pr
          rw [hfn] at h
          simp at h
      | ok s2 =>
          rw [hfn] at h
          obtain ⟨new, hcps, hnames, hrid⟩ := ih s2 _ st1 s1 h
          refine ⟨(⟨idGen st.counter, rid, name, st.counter, s2,
              name ++ " completed"⟩ : RunCheckpoint) :: new, ?_, ?_, ?_⟩
          · rw [hcps]; simp [save_checkpoint]
          · simp [hnames]
          · intro c hc
            rcases List.mem_cons.mp hc with hc | hc
            · subst hc; rfl
            · exact hrid c hc

/-- Claim C4: if stage `i` raises during `start_run` (the stages before it
having succeeded, reaching state `preS` and store `preSt`), exactly one
additional checkpoint is appended: it is named after stage `i`, carries note
`"<stage> error: <message>"` and the state as of the failure, the exception
is re-raised to the caller, and no stage after `i` executes — the run's
checkpoint trail is the starter, one per successful stage, then the single
failure checkpoint, and nothing else. -/
theorem C4_stage_failure_one_checkpoint (llm : Llm) (idGen : Nat → String)
    (rid intent : String) (st : Store) (i : Nat) (hi : i < (nodes llm).length)
    (e : String) (preSt : Store) (preS sErr : RState)
    (hfresh : st.checkpoints.filter (fun c => c.run_id == rid) = [])
    (hpre : run_stages_start idGen rid ((nodes llm).take i) (initial_state rid intent)
        (save_checkpoint idGen st rid "starter" (initial_state rid intent) "run started")
        = (preSt, Except.ok preS))
    (hfail : ((nodes llm).get ⟨i, hi⟩).2 preS = Except.error (e, sErr)) :
    start_run llm idGen rid intent st =
      (save_checkpoint idGen preSt rid ((nodes llm).get ⟨i, hi⟩).1 sErr
        (((nodes llm).get ⟨i, hi⟩).1 ++ " error: " ++ e), Except.error e) ∧
    ((start_run llm idGen rid intent st).1.checkpoints.filter
        (fun c => c.run_id == rid)).map (fun c => c.agent_name) =
      "starter" :: (((nodes llm).take i).map (fun p => p.1) ++
        [((nodes llm).get ⟨i, hi⟩).1]) := by
  rcases hget : (nodes llm).get ⟨i, hi⟩ with ⟨name, fn⟩
  rw [hget] at hfail
  have hfail' : fn preS = Except.error (e, sErr) := hfail
  have hnodes : nodes llm =
      (nodes llm).take i ++ ((name, fn) :: (nodes llm).drop (i + 1)) := by
    conv_lhs => rw [← List.take_append_drop i (nodes llm)]
    rw [List.drop_eq_getElem_cons hi]
    rw [show (nodes llm)[i] = (name, fn) from by rw [← hget]; rfl]
  have hrun : run_stages_start idGen rid (nodes llm) (initial_state rid intent)
      (save_checkpoint idGen st rid "starter" (initial_state rid intent) "run started") =
      (save_checkpoint idGen preSt rid name sErr (name ++ " error: " ++ e),
        Except.error e) := by
    rw [hnodes, run_stages_start_append, hpre]
    simp only [run_stages_start, hfail']
  have hmain : start_run llm idGen rid intent st =
      (save_checkpoint idGen preSt rid name sErr (name ++ " error: " ++ e),
        Except.error e) := by
    simp only [start_run, hrun]
  obtain ⟨new, hcps, hnames, hridnew⟩ :=
    run_stages_start_ok_decomp idGen rid ((nodes llm).take i) _ _ _ _ hpre
  have hfilter_new : new.filter (fun c => c.run_id == rid) = new :=
    List.filter_eq_self.mpr (fun c hc => by simp [hridnew c hc])
  refine ⟨hmain, ?_⟩
  rw [hmain]
  simp only [save_checkpoint, hcps]
  simp [List.filter_append, hfresh, hfilter_new, hnames]

/-- A concrete oracle that raises on the safety-check prompt only, making
stage index 1 (`SafetyGuardian`) the first failing stage. -/
def llm_fail : Llm := fun p =>
  if p = "Check this draft for safety: txt" then Except.error "boom"
  else Except.ok "txt"

/-- The store after the starter checkpoint and the successful `Draftsman`
stage under `llm_fail`. -/
def c4_preSt : Store :=
  (run_stages_start idGen0 "r" ((nodes llm_fail).take 1) (initial_state "r" "sleep")
    (save_checkpoint idGen0 store0 "r" "starter" (initial_state "r" "sleep")
      "run started")).1

/-- The state after the successful `Draftsman` stage under `llm_fail`. -/
def c4_preS : RState :=
  match (run_stages_start idGen0 "r" ((nodes llm_fail).take 1)
      (initial_state "r" "sleep")
      (save_checkpoint idGen0 store0 "r" "starter" (initial_state "r" "sleep")
        "run started")).2 with
  | Except.ok s => s
  | Except.error _ => initial_state "r" "sleep"

/-- Witness for C4 at the concrete `SafetyGuardian` failure. -/
theorem C4_stage_failure_one_checkpoint_witness :
    start_run llm_fail idGen0 "r" "sleep" store0 =
      (save_checkpoint idGen0 c4_preSt "r" "SafetyGuardian" c4_preS
        ("SafetyGuardian" ++ " error: " ++ "boom"), Except.error "boom") ∧
    ((start_run llm_fail idGen0 "r" "sleep" store0).1.checkpoints.filter
        (fun c => c.run_id == "r")).map (fun c => c.agent_name) =
      "starter" :: (((nodes llm_fail).take 1).map (fun p => p.1) ++
        ["SafetyGuardian"]) :=
  C4_stage_failure_one_checkpoint llm_fail idGen0 "r" "sleep" store0 1 (by decide)
    "boom" c4_preSt c4_preS c4_preS (by rfl) (by rfl) (by rfl)

/-! ### Progress feed (`event_stream`) -/

/-- The id the feed has last emitted after having observed the first `n`
checkpoints of a run; `none` before the first emission. -/
def last_marker (cps : List RunCheckpoint) : Nat → Option String
  | 0 => none
  | n + 1 => (cps[n]?).map (fun c => c.id)

/-- On a store whose rows for the run have strictly increasing timestamps,
the latest query over the first `n + 1` rows returns row `n`. -/
theorem load_last_take_succ (cps : List RunCheckpoint) (rid : String)
    (hrid : ∀ c ∈ cps, c.run_id = rid)
    (hts : cps.Pairwise (fun a b => a.timestamp < b.timestamp)) :
    ∀ (n : Nat) (hn : n < cps.length),
      load_last_checkpoint (cps.take (n + 1)) rid = some (cps.get ⟨n, hn⟩) := by
  intro n
  induction n with
  | zero =>
      intro hn
      rw [List.take_succ, List.getElem?_eq_getElem hn]
      have hmem : cps[0] ∈ cps := List.getElem_mem hn
      rw [load_last_append]
      simp [hrid _ hmem, load_last_checkpoint, pick_later]
  | succ m ih =>
      intro hn
      have hm : m < cps.length := by omega
      rw [List.take_succ, List.getElem?_eq_getElem hn]
      have hmem : cps[m + 1] ∈ cps := List.getElem_mem hn
      rw [load_last_append]
      have hlt : cps[m].timestamp < cps[m + 1].timestamp := by
        have := List.pairwise_iff_get.mp hts ⟨m, hm⟩ ⟨m + 1, hn⟩
          (Fin.mk_lt_mk.mpr (Nat.lt_succ_self m))
        simpa using this
      rw [ih hm]
      simp [hrid _ hmem, pick_later, hlt]

/-- Along a poll sequence that only repeats or advances by one, every value
is at most the final one. -/
theorem chain_le_getLast : ∀ (l : List Nat) (m : Nat),
    List.Chain' (fun x y => y = x ∨ y = x + 1) l →
    l.getLast? = some m → ∀ x ∈ l, x ≤ m := by
  intro l
  induction l with
  | nil => intro m _ h; simp at h
  | cons a t ih =>
      intro m hchain hlast x hx
      cases t with
      | nil =>
          simp at hlast hx
          omega
      | cons b t2 =>
          rw [List.getLast?_cons_cons] at hlast
          obtain ⟨hab, hchain2⟩ := List.chain'_cons.mp hchain
          rcases List.mem_cons.mp hx with rfl | hx2
          · have hb : b ≤ m := ih m hchain2 hlast b (by simp)
            rcases hab with h | h <;> omega
          · exact ih m hchain2 hlast x hx2

/-- The feed loop, started with marker `last_marker cps a`, over polls that
only repeat or advance by one and end having seen the whole run, emits
exactly the not-yet-seen checkpoints, in order. -/
theorem feed_aux (rid : String) (cps : List RunCheckpoint)
    (hrid : ∀ c ∈ cps, c.run_id = rid)
    (hts : cps.Pairwise (fun a b => a.timestamp < b.timestamp))
    (hid : (cps.map (fun c => c.id)).Nodup) :
    ∀ (polls : List Nat) (a : Nat), a ≤ cps.length →
      List.Chain' (fun x y => y = x ∨ y = x + 1) (a :: polls) →
      (a :: polls).getLast? = some cps.length →
      feed_run (last_marker cps a)
          (polls.map (fun n => load_last_checkpoint (cps.take n) rid)) =
        (cps.drop a).map payload_of := by
  intro polls
  induction polls with
  | nil =>
      intro a ha hchain hlast
      simp at hlast
      subst hlast
      simp [feed_run]
  | cons p rest ih =>
      intro a ha hchain hlast
      obtain ⟨hap, hchain2⟩ := List.chain'_cons.mp hchain
      rw [List.getLast?_cons_cons] at hlast
      have hple : p ≤ cps.length :=
        chain_le_getLast (p :: rest) cps.length hchain2 hlast p (by simp)
      simp only [List.map_cons]
      rcases hap with rfl | rfl
      · -- no new checkpoint since the previous poll
        cases p with
        | zero =>
            rw [show load_last_checkpoint (cps.take 0) rid = none from rfl]
            simp only [feed_run, feed_poll, last_marker]
            exact ih 0 (by omega) hchain2 hlast
        | succ m =>
            have hm : m < cps.length := by omega
            rw [load_last_take_succ cps rid hrid hts m hm]
            have hmarker : last_marker cps (m + 1) = some ((cps.get ⟨m, hm⟩).id) := by
              simp [last_marker, List.getElem?_eq_getElem hm]
            rw [hmarker]
            simp only [feed_run, feed_poll, ne_eq, not_true_eq_false, if_neg,
              not_not, reduceIte]
            rw [← hmarker]
            exact ih (m + 1) (by omega) hchain2 hlast
      · -- exactly one new checkpoint since the previous poll
        have halt : a < cps.length := by omega
        rw [load_last_take_succ cps rid hrid hts a halt]
        have hneq : some ((cps.get ⟨a, halt⟩).id) ≠ last_marker cps a := by
          cases a with
          | zero => simp [last_marker]
          | succ m =>
              have hm : m < cps.length := by omega
              simp only [last_marker, List.getElem?_eq_getElem hm, Option.map_some',
                ne_eq, Option.some.injEq]
              intro hcontra
              have hne2 := List.pairwise_iff_get.mp hid
                ⟨m, by simpa using hm⟩ ⟨m + 1, by simpa using halt⟩
                (Fin.mk_lt_mk.mpr (Nat.lt_succ_self m))
              simp only [List.get_eq_getElem, List.getElem_map, ne_eq] at hne2
              exact hne2 (by simpa using hcontra.symm)
        have hmarker : last_marker cps (a + 1) = some ((cps.get ⟨a, halt⟩).id) := by
          simp [last_marker, List.getElem?_eq_getElem halt]
        simp only [feed_run, feed_poll, if_pos hneq]
        rw [← hmarker, ih (a + 1) (by omega) hchain2 hlast]
        rw [show cps.drop a = cps[a] :: cps.drop (a + 1) from
          List.drop_eq_getElem_cons halt, List.map_cons]
        rfl

/-- Claim C8: a feed observing a run through `load_last_checkpoint` emits an
event `{agent, timestamp, note, state}` exactly when the latest checkpoint's
id differs from the last emitted one; over any polling trace that starts
before the first checkpoint, only repeats or advances by one checkpoint per
poll (polling faster than checkpoints are written), and ends having seen
them all, the feed emits every checkpoint's event exactly once, in creation
order — no duplicates, nothing skipped. -/
theorem C8_feed_no_dup_no_skip (rid : String) (cps : List RunCheckpoint)
    (polls : List Nat)
    (hrid : ∀ c ∈ cps, c.run_id = rid)
    (hts : cps.Pairwise (fun a b => a.timestamp < b.timestamp))
    (hid : (cps.map (fun c => c.id)).Nodup)
    (hchain : List.Chain' (fun x y => y = x ∨ y = x + 1) (0 :: polls))
    (hlast : (0 :: polls).getLast? = some cps.length) :
    feed_run none
        ((0 :: polls).map (fun n => load_last_checkpoint (cps.take n) rid)) =
      cps.map payload_of := by
  have h := feed_aux rid cps hrid hts hid polls 0 (by omega) hchain hlast
  simp only [List.map_cons]
  rw [show load_last_checkpoint (cps.take 0) rid = none from rfl]
  simp only [feed_run, feed_poll]
  simpa [last_marker] using h

/-- First checkpoint of the two-row C8 witness run. -/
def c8_cp1 : RunCheckpoint :=
  { id := "u1", run_id := "r", agent_name := "starter", timestamp := 0,
    state_snapshot := initial_state "r" "sleep", note := "run started" }

/-- Second checkpoint of the two-row C8 witness run. -/
def c8_cp2 : RunCheckpoint :=
  { id := "u2", run_id := "r", agent_name := "Draftsman", timestamp := 1,
    state_snapshot := initial_state "r" "sleep", note := "Draftsman completed" }

/-- Witness for C8: five polls over a run that grows to two checkpoints
emit exactly the two events, in order. -/
theorem C8_feed_no_dup_no_skip_witness :
    feed_run none
        (((0 : Nat) :: [0, 1, 1, 2]).map
          (fun n => load_last_checkpoint ([c8_cp1, c8_cp2].take n) "r")) =
      [c8_cp1, c8_cp2].map payload_of :=
  C8_feed_no_dup_no_skip "r" [c8_cp1, c8_cp2] [0, 1, 1, 2]
    (by decide) (by decide) (by decide) (by simp [List.chain'_cons]) (by rfl)

end Cerina
